import Mathlib

/-!
Verification development for the Twitter-Timeline-Scrap repository
(`src/app/scraper.py`, `src/scheduler.py`, `src/run_scraper.py`).

Python strings are embedded as `List Char`; the Python string operations
used by the code (`in`, `split`, `startswith`, `lower`, `list.index`) are
given executable Lean counterparts with the same semantics.  Effectful
calls to the external durable store (Supabase) are modelled by explicit
store state plus environment-chosen fault parameters, and the rendered
browser page is modelled as a function from scroll-cycle number to the
list of currently rendered elements.
-/

/-- Python strings, embedded as lists of characters. -/
abbrev Str := List Char

/-- Python `s.startswith(p)`: `strStartsWith s p` is true when `p` is an
initial segment of `s`. -/
def strStartsWith : Str → Str → Bool
  | _, [] => true
  | [], _ :: _ => false
  | a :: s, b :: p => decide (a = b) && strStartsWith s p

/-- Python `needle in hay` substring test: `strContains hay needle`. -/
def strContains : Str → Str → Bool
  | [], needle => needle.isEmpty
  | c :: rest, needle => strStartsWith (c :: rest) needle || strContains rest needle

/-- Python `s.split(c)` for a single-character separator. -/
def splitChar (c : Char) : Str → List Str
  | [] => [[]]
  | a :: rest =>
    if a = c then [] :: splitChar c rest
    else (a :: (splitChar c rest).headD []) :: (splitChar c rest).tail

/-- First non-overlapping occurrence of `sep` in a string: the text before
it and the text after it, scanning left to right (as Python `str.split`
does for a multi-character separator). -/
def findSplit (sep : Str) : Str → Option (Str × Str)
  | [] => none
  | c :: rest =>
    if strStartsWith (c :: rest) sep then some ([], (c :: rest).drop sep.length)
    else
      match findSplit sep rest with
      | some (b, a) => some (c :: b, a)
      | none => none

/-- Fuel-driven worker for `splitSub`; the fuel bounds the number of
separator occurrences, and `splitSub` supplies enough of it that the
limit is never reached. -/
def splitSubGo (sep : Str) : Nat → Str → List Str
  | 0, s => [s]
  | fuel + 1, s =>
    match findSplit sep s with
    | none => [s]
    | some (b, a) => b :: splitSubGo sep fuel a

/-- Python `s.split(sep)` for a non-empty multi-character separator:
non-overlapping occurrences, scanned left to right. -/
def splitSub (sep s : Str) : List Str := splitSubGo sep s.length s

/-- Python `list.index(a)` (first index of `a`; only meaningful when the
call is guarded by a membership test, as in the source). -/
def listIndex (a : Str) : List Str → Nat
  | [] => 0
  | x :: xs => if x = a then 0 else listIndex a xs + 1

/-- The literal `'/status/'` the scraper searches permalinks for. -/
def statusMarker : Str := ('/').toString.toList ++ ("status").toList ++ ('/').toString.toList

/-- The canonical host path segment `'x.com'`. -/
def xcomSeg : Str := ("x.com").toList

/-- The legacy host path segment `'twitter.com'`. -/
def twitterSeg : Str := ("twitter.com").toList

/-- `TwitterScraperPlaywright.extract_tweet_id_from_url`
(src/app/scraper.py lines 144-153):
`url.split('/status/')[-1].split('?')[0].split('/')[0]` when the URL
contains `'/status/'`, else `None`.  No exception can occur in the body,
so the `except` branch is unreachable. -/
def extract_tweet_id_from_url (url : Str) : Option Str :=
  if strContains url statusMarker then
    some ((splitChar '/' ((splitChar '?' ((splitSub statusMarker url).getLastD [])).headD [])).headD [])
  else none

/-- `TwitterScraperPlaywright.extract_author_from_url`
(src/app/scraper.py lines 155-165): splits the URL on `'/'` and returns
the segment one past the first `'x.com'` segment if present, else one
past the first `'twitter.com'` segment; a `ValueError` (neither host
present) or `IndexError` (host is the last segment) is caught and turned
into `None`. -/
def extract_author_from_url (url : Str) : Option Str :=
  if strContains url statusMarker then
    let parts := splitChar '/' url
    if xcomSeg ∈ parts then parts.get? (listIndex xcomSeg parts + 1)
    else if twitterSeg ∈ parts then parts.get? (listIndex twitterSeg parts + 1)
    else none
  else none

/-- One rendered `article[role="article"]` element of the timeline page,
as the Collection Loop observes it: `href` is the attribute of the first
anchor matching `a[href*="/status/"]` (`none` when no such anchor exists
or the attribute is missing, both of which make the loop skip the
element), `innerText` is the element's visible text. -/
structure PageElement where
  href : Option Str
  innerText : Str
deriving DecidableEq, Repr

/-- One collected tweet record, the dict built at
src/app/scraper.py lines 245-251. -/
structure Tweet where
  tweet_id : Str
  content : Str
  author : Option Str
  url : Str
deriving DecidableEq, Repr

/-- The inner `for tweet_element in tweet_elements` loop of
`TwitterScraperPlaywright.collect_tweets` (src/app/scraper.py lines
228-263): breaks once `max_tweets` records are held, skips elements
without a usable permalink, skips identifiers already in the session's
`processed_tweet_ids` set, and otherwise records the tweet.  Returns the
updated `(processed_tweet_ids, tweets_data)` pair. -/
def processElements (maxTweets : Nat) : List PageElement → List Str → List Tweet → List Str × List Tweet
  | [], seen, acc => (seen, acc)
  | e :: es, seen, acc =>
    if maxTweets ≤ acc.length then (seen, acc)
    else
      match e.href with
      | none => processElements maxTweets es seen acc
      | some h =>
        let tweet_url := if strStartsWith h (("http").toList) then h else ("https://x.com").toList ++ h
        match extract_tweet_id_from_url tweet_url with
        | none => processElements maxTweets es seen acc
        | some tid =>
          if tid.isEmpty then processElements maxTweets es seen acc
          else if tid ∈ seen then processElements maxTweets es seen acc
          else
            processElements maxTweets es (tid :: seen)
              (acc ++ [⟨tid, e.innerText, extract_author_from_url tweet_url, tweet_url⟩])

/-- The `while` loop of `TwitterScraperPlaywright.collect_tweets`
(src/app/scraper.py lines 223-302).  `page n` is the list of rendered
elements the `query_selector_all` call sees when `scroll_attempts = n`;
`remaining` counts the scroll attempts still allowed, so the loop guard
`scroll_attempts < max_scroll_attempts` is `remaining ≠ 0`.  Returns the
accumulated `tweets_data` together with the final `scroll_attempts`
value (the number of scroll cycles performed). -/
def collectAux (page : Nat → List PageElement) (maxTweets : Nat) :
    Nat → Nat → List Str → List Tweet → List Tweet × Nat
  | attempt, 0, _seen, acc => (acc, attempt)
  | attempt, remaining + 1, seen, acc =>
    if acc.length < maxTweets then
      match processElements maxTweets (page attempt) seen acc with
      | (seen', acc') =>
        if acc'.length < maxTweets then collectAux page maxTweets (attempt + 1) remaining seen' acc'
        else (acc', attempt)
    else (acc, attempt)

/-- `TwitterScraperPlaywright.collect_tweets` (src/app/scraper.py lines
202-305): runs the scroll/collect loop from an empty session with the
hard-coded `max_scroll_attempts = 20` and returns `tweets_data`. -/
def collect_tweets (page : Nat → List PageElement) (max_tweets : Nat) : List Tweet :=
  (collectAux page max_tweets 0 20 [] []).1

/-- The final `scroll_attempts` value of a `collect_tweets` run. -/
def collect_tweets_scrolls (page : Nat → List PageElement) (max_tweets : Nat) : Nat :=
  (collectAux page max_tweets 0 20 [] []).2

/-- One row of the `timeline_tweets` table (columns inserted at
src/app/scraper.py lines 68-73). -/
structure TweetRow where
  tweet_id : Str
  content : Str
  author : Option Str
  tweet_url : Str
deriving DecidableEq, Repr

/-- `TwitterScraperPlaywright.is_duplicate` (src/app/scraper.py lines
52-59): selects rows with the given `tweet_id` and reports whether any
exist; if the query raises (`selFault = true`, a transport/query
failure), the exception is logged and the method returns `False`. -/
def is_duplicate (selFault : Bool) (store : List TweetRow) (tweet_id : Str) : Bool :=
  if selFault then false
  else store.any (fun r => decide (r.tweet_id = tweet_id))

/-- Modelled from the spec: the durable-store insert collaborator
(§6 "insert a row ... returning success or a constraint-violation
failure").  `insFault = some msg` is an environment-chosen transport
failure raising `msg`; otherwise the store enforces its uniqueness
constraint on `tweet_id`, raising a Postgres-style duplicate-key message,
and on success appends the row. -/
def dbInsert (insFault : Option Str) (store : List TweetRow) (row : TweetRow) :
    Except Str (List TweetRow) :=
  match insFault with
  | some msg => .error msg
  | none =>
    if store.any (fun r => decide (r.tweet_id = row.tweet_id)) then
      .error (("duplicate key value violates unique constraint").toList)
    else .ok (store ++ [row])

/-- The branch of `save_tweet` that an invocation takes; the four
branches are observably distinct in the source only through their log
lines (lines 63, 81, 84, 85 of src/app/scraper.py). -/
inductive SaveOutcome where
  | saved
  | skipPrecheck
  | skipUnique
  | failOther
deriving DecidableEq, Repr

/-- The test `'duplicate' in str(e).lower() or 'unique' in str(e).lower()`
of src/app/scraper.py line 81. -/
def looksLikeDupError (msg : Str) : Bool :=
  strContains (msg.map Char.toLower) (("duplicate").toList)
    || strContains (msg.map Char.toLower) (("unique").toList)

/-- `TwitterScraperPlaywright.save_tweet` (src/app/scraper.py lines
61-86), instrumented with the branch taken: pre-check duplicate returns
without writing; a successful insert appends the row; an insert error
whose message mentions `duplicate`/`unique` is the constraint-violation
branch; any other insert error is the final `else` branch.  The store
state is returned unchanged on every non-`saved` branch. -/
def save_tweet_outcome (selFault : Bool) (insFault : Option Str) (store : List TweetRow)
    (tweet_id content : Str) (author : Option Str) (tweet_url : Str) :
    SaveOutcome × List TweetRow :=
  if is_duplicate selFault store tweet_id then (.skipPrecheck, store)
  else
    match dbInsert insFault store ⟨tweet_id, content, author, tweet_url⟩ with
    | .ok store' => (.saved, store')
    | .error e => if looksLikeDupError e then (.skipUnique, store) else (.failOther, store)

/-- The value `save_tweet` actually returns: `True` exactly on the saved
branch, `False` on all three failure/skip branches (lines 64, 77, 82, 86
of src/app/scraper.py). -/
def save_tweet (selFault : Bool) (insFault : Option Str) (store : List TweetRow)
    (tweet_id content : Str) (author : Option Str) (tweet_url : Str) :
    Bool × List TweetRow :=
  match save_tweet_outcome selFault insFault store tweet_id content author tweet_url with
  | (o, store') => (decide (o = .saved), store')

/-- The persistence loop of `TwitterScraperPlaywright.scrape_and_save`
(src/app/scraper.py lines 318-338): calls `save_tweet` on each collected
tweet in order, incrementing `saved_count` on `True` and `skipped_count`
on `False`.  `selF i` / `insF i` are the environment's fault choices for
the `i`-th call; returns `(saved_count, skipped_count, store)`. -/
def persistFrom (selF : Nat → Bool) (insF : Nat → Option Str) :
    Nat → List TweetRow → List Tweet → Nat × Nat × List TweetRow
  | _, store, [] => (0, 0, store)
  | i, store, t :: ts =>
    match save_tweet (selF i) (insF i) store t.tweet_id t.content t.author t.url with
    | (b, store') =>
      match persistFrom selF insF (i + 1) store' ts with
      | (sv, sk, store'') => if b then (sv + 1, sk, store'') else (sv, sk + 1, store'')

/-- The summary dict built at src/app/scraper.py lines 340-345. -/
structure RunResult where
  total_collected : Nat
  saved : Nat
  skipped_duplicates : Nat
deriving DecidableEq, Repr

/-- The save phase and summary of `TwitterScraperPlaywright.scrape_and_save`
(src/app/scraper.py lines 314-348), given the list of tweets the
Collection Loop returned. -/
def scrape_and_save_result (selF : Nat → Bool) (insF : Nat → Option Str)
    (store : List TweetRow) (tweets : List Tweet) : RunResult × List TweetRow :=
  match persistFrom selF insF 0 store tweets with
  | (sv, sk, store') => (⟨tweets.length, sv, sk⟩, store')

/-- `ScraperScheduler.get_random_interval` (src/scheduler.py lines
27-36) over real arithmetic: `random.uniform(a, b)` is modelled as
`a + (b - a) * u` (its CPython definition) for a sample `u ∈ [0, 1)`. -/
def get_random_interval (base_interval : ℝ) (u : ℝ) : ℝ :=
  base_interval * 0.8 + (base_interval * 1.2 - base_interval * 0.8) * u

/-- The scheduler's loop-exit test `if max_runs and self.run_count >= max_runs`
(src/scheduler.py line 88): `max_runs` is falsy when it is `None` or the
integer `0`. -/
def shouldStop (max_runs : Option Int) (run_count : Int) : Bool :=
  match max_runs with
  | none => false
  | some m => decide (m ≠ 0) && decide (m ≤ run_count)

/-- `run_count` after `k` iterations of `ScraperScheduler.start`'s
`while True` loop (src/scheduler.py lines 85-106): each iteration either
breaks on `shouldStop` or calls `run_once`, whose first statement
increments `run_count` (src/scheduler.py line 40) — so `run_count`
equals the number of Run Orchestrator invocations. -/
def runsAfter (max_runs : Option Int) : Nat → Int
  | 0 => 0
  | k + 1 =>
    let r := runsAfter max_runs k
    if shouldStop max_runs r then r else r + 1

/-- The identifiers of a list of collected tweets, in order. -/
def tweetIds (l : List Tweet) : List Str := l.map (fun t => t.tweet_id)

/-- Follows the claim's words (refinement comparison for C5, not a
source translation): the path segment immediately preceding the
`status` segment of the permalink. -/
def authorPrecedingStatus (url : Str) : Option Str :=
  let parts := splitChar '/' url
  if ("status").toList ∈ parts then
    match listIndex (("status").toList) parts with
    | 0 => none
    | i + 1 => parts.get? i
  else none

/-- A concrete stored row used by counterexamples and witnesses. -/
def exRow : TweetRow :=
  ⟨("111").toList, ("hello").toList, some (("alice").toList),
    ("https://x.com/alice/status/111").toList⟩

theorem splitChar_ne_nil (c : Char) (s : Str) : splitChar c s ≠ [] := by
  induction s with
  | nil => simp [splitChar]
  | cons a rest ih =>
    by_cases h : a = c <;> simp [splitChar, h]

theorem strStartsWith_append_self (x y : Str) : strStartsWith (x ++ y) x = true := by
  induction x with
  | nil => cases y <;> simp [strStartsWith]
  | cons a as ih => simpa [strStartsWith] using ih

theorem strContains_of_append (a sep b : Str) (hsep : sep ≠ []) :
    strContains (a ++ sep ++ b) sep = true := by
  induction a with
  | nil =>
    obtain ⟨c, s, rfl⟩ := List.exists_cons_of_ne_nil hsep
    have h := strStartsWith_append_self (c :: s) b
    simp only [List.cons_append] at h
    simp [strContains, h]
  | cons x xs ih =>
    simp only [List.cons_append, strContains, Bool.or_eq_true]
    exact Or.inr ih

theorem splitChar_append (c : Char) (a b : Str) :
    splitChar c (a ++ c :: b) = splitChar c a ++ splitChar c b := by
  induction a with
  | nil => simp [splitChar]
  | cons x a' ih =>
    by_cases hx : x = c
    · simp [splitChar, hx, ih]
    · obtain ⟨y, ys, hy⟩ := List.exists_cons_of_ne_nil (splitChar_ne_nil c a')
      simp [splitChar, hx, ih, hy]

theorem splitChar_of_not_mem (c : Char) (s : Str) (h : c ∉ s) : splitChar c s = [s] := by
  induction s with
  | nil => simp [splitChar]
  | cons a rest ih =>
    have ha : a ≠ c := fun hac => h (hac ▸ List.mem_cons_self a rest)
    have hr : c ∉ rest := fun hc => h (List.mem_cons_of_mem a hc)
    simp [splitChar, ha, ih hr]

theorem tweetIds_append (acc : List Tweet) (t : Tweet) :
    tweetIds (acc ++ [t]) = tweetIds acc ++ [t.tweet_id] := by
  simp [tweetIds]

theorem processElements_length_le (m : Nat) (es : List PageElement) :
    ∀ seen acc, acc.length ≤ m → (processElements m es seen acc).2.length ≤ m := by
  induction es with
  | nil => intro seen acc h; simpa [processElements]
  | cons e es ih =>
    intro seen acc h
    simp only [processElements]
    by_cases hm : m ≤ acc.length
    · simpa [hm]
    · have hlt : acc.length < m := Nat.lt_of_not_le hm
      simp only [if_neg hm]
      cases e.href with
      | none => exact ih seen acc h
      | some hr =>
        simp only
        cases extract_tweet_id_from_url
            (if strStartsWith hr ("http").toList then hr else ("https://x.com").toList ++ hr) with
        | none => exact ih seen acc h
        | some tid =>
          by_cases h1 : tid.isEmpty
          · simpa [h1] using ih seen acc h
          · by_cases h2 : tid ∈ seen
            · simpa [h1, h2] using ih seen acc h
            · simp only [h1, h2, if_neg, if_false, Bool.false_eq_true, ite_false]
              exact ih _ _ (by simpa using hlt)

theorem processElements_invariant (m : Nat) (es : List PageElement) :
    ∀ seen acc, (tweetIds acc).Nodup → (∀ i ∈ tweetIds acc, i ∈ seen) →
      (tweetIds (processElements m es seen acc).2).Nodup ∧
        (∀ i ∈ tweetIds (processElements m es seen acc).2, i ∈ (processElements m es seen acc).1) := by
  induction es with
  | nil => intro seen acc h1 h2; simpa [processElements] using ⟨h1, h2⟩
  | cons e es ih =>
    intro seen acc h1 h2
    simp only [processElements]
    by_cases hm : m ≤ acc.length
    · simpa [hm] using ⟨h1, h2⟩
    · simp only [if_neg hm]
      cases e.href with
      | none => exact ih seen acc h1 h2
      | some hr =>
        simp only
        cases extract_tweet_id_from_url
            (if strStartsWith hr ("http").toList then hr else ("https://x.com").toList ++ hr) with
        | none => exact ih seen acc h1 h2
        | some tid =>
          by_cases he : tid.isEmpty
          · simpa [he] using ih seen acc h1 h2
          · by_cases hs : tid ∈ seen
            · simpa [he, hs] using ih seen acc h1 h2
            · simp only [he, hs, if_neg, if_false, Bool.false_eq_true, ite_false]
              have htid : tid ∉ tweetIds acc := fun hmem => hs (h2 tid hmem)
              apply ih
              · rw [tweetIds_append]
                refine List.nodup_append.2 ⟨h1, List.nodup_singleton _, ?_⟩
                intro x hx hmem
                have : x = tid := by simpa using hmem
                exact htid (this ▸ hx)
              · intro i hi
                rw [tweetIds_append] at hi
                rcases List.mem_append.1 hi with hi | hi
                · exact List.mem_cons_of_mem _ (h2 i hi)
                · have : i = tid := by simpa using hi
                  simp [this]

theorem collectAux_length_le (page : Nat → List PageElement) (m : Nat) :
    ∀ remaining attempt seen acc, acc.length ≤ m →
      (collectAux page m attempt remaining seen acc).1.length ≤ m := by
  intro remaining
  induction remaining with
  | zero => intro attempt seen acc h; simpa [collectAux]
  | succ r ih =>
    intro attempt seen acc h
    simp only [collectAux]
    by_cases hlt : acc.length < m
    · simp only [if_pos hlt]
      have hpe := processElements_length_le m (page attempt) seen acc h
      cases hp : processElements m (page attempt) seen acc with
      | mk seen' acc' =>
        rw [hp] at hpe
        by_cases h2 : acc'.length < m
        · simpa [h2] using ih (attempt + 1) seen' acc' hpe
        · simpa [h2] using hpe
    · simpa [hlt]

theorem collectAux_scrolls_le (page : Nat → List PageElement) (m : Nat) :
    ∀ remaining attempt seen acc,
      (collectAux page m attempt remaining seen acc).2 ≤ attempt + remaining := by
  intro remaining
  induction remaining with
  | zero => intro attempt seen acc; simp [collectAux]
  | succ r ih =>
    intro attempt seen acc
    simp only [collectAux]
    by_cases hlt : acc.length < m
    · simp only [if_pos hlt]
      cases hp : processElements m (page attempt) seen acc with
      | mk seen' acc' =>
        by_cases h2 : acc'.length < m
        · have := ih (attempt + 1) seen' acc'
          simp only [h2, if_pos]
          omega
        · simp only [h2, if_neg, ite_false]
          omega
    · simp only [if_neg hlt]
      omega

theorem collectAux_nodup (page : Nat → List PageElement) (m : Nat) :
    ∀ remaining attempt seen acc, (tweetIds acc).Nodup → (∀ i ∈ tweetIds acc, i ∈ seen) →
      (tweetIds (collectAux page m attempt remaining seen acc).1).Nodup := by
  intro remaining
  induction remaining with
  | zero => intro attempt seen acc h1 h2; simpa [collectAux]
  | succ r ih =>
    intro attempt seen acc h1 h2
    simp only [collectAux]
    by_cases hlt : acc.length < m
    · simp only [if_pos hlt]
      have hpe := processElements_invariant m (page attempt) seen acc h1 h2
      cases hp : processElements m (page attempt) seen acc with
      | mk seen' acc' =>
        rw [hp] at hpe
        by_cases h2' : acc'.length < m
        · simpa [h2'] using ih (attempt + 1) seen' acc' hpe.1 hpe.2
        · simpa [h2'] using hpe.1
    · simpa [hlt]

theorem any_id_eq_false {store : List TweetRow} {tid : Str}
    (h : ∀ r ∈ store, r.tweet_id ≠ tid) :
    (store.any fun r => decide (r.tweet_id = tid)) = false := by
  rw [Bool.eq_false_iff]
  intro hcontra
  rw [List.any_eq_true] at hcontra
  obtain ⟨r, hr, hpr⟩ := hcontra
  exact h r hr (by simpa using hpr)

theorem any_id_eq_true {store : List TweetRow} {tid : Str}
    (h : ∃ r ∈ store, r.tweet_id = tid) :
    (store.any fun r => decide (r.tweet_id = tid)) = true := by
  rw [List.any_eq_true]
  obtain ⟨r, hr, hpr⟩ := h
  exact ⟨r, hr, by simpa using hpr⟩

theorem save_tweet_outcome_fresh (selb : Bool) (store : List TweetRow)
    (tid content : Str) (author : Option Str) (url : Str)
    (h : ∀ r ∈ store, r.tweet_id ≠ tid) :
    save_tweet_outcome selb none store tid content author url
      = (.saved, store ++ [⟨tid, content, author, url⟩]) := by
  have hany := any_id_eq_false h
  cases selb <;> simp [save_tweet_outcome, is_duplicate, dbInsert, hany]

theorem save_tweet_fresh (selb : Bool) (store : List TweetRow)
    (tid content : Str) (author : Option Str) (url : Str)
    (h : ∀ r ∈ store, r.tweet_id ≠ tid) :
    save_tweet selb none store tid content author url
      = (true, store ++ [⟨tid, content, author, url⟩]) := by
  simp [save_tweet, save_tweet_outcome_fresh selb store tid content author url h]

theorem save_tweet_outcome_dup (insb : Option Str) (store : List TweetRow)
    (tid content : Str) (author : Option Str) (url : Str)
    (h : ∃ r ∈ store, r.tweet_id = tid) :
    save_tweet_outcome false insb store tid content author url = (.skipPrecheck, store) := by
  have hany := any_id_eq_true h
  simp [save_tweet_outcome, is_duplicate, hany]

theorem save_tweet_dup (insb : Option Str) (store : List TweetRow)
    (tid content : Str) (author : Option Str) (url : Str)
    (h : ∃ r ∈ store, r.tweet_id = tid) :
    save_tweet false insb store tid content author url = (false, store) := by
  simp [save_tweet, save_tweet_outcome_dup insb store tid content author url h]

theorem save_tweet_never_saved_on_fault (store : List TweetRow)
    (tid content : Str) (author : Option Str) (url msg : Str) (selb : Bool) :
    (save_tweet selb (some msg) store tid content author url).1 = false := by
  by_cases hdup : is_duplicate selb store tid
  · simp [save_tweet, save_tweet_outcome, hdup]
  · by_cases hmsg : looksLikeDupError msg
    · simp [save_tweet, save_tweet_outcome, dbInsert, hdup, hmsg]
    · simp [save_tweet, save_tweet_outcome, dbInsert, hdup, hmsg]

theorem persistFrom_tally (selF : Nat → Bool) (insF : Nat → Option Str) :
    ∀ (tweets : List Tweet) (i : Nat) (store : List TweetRow),
      (persistFrom selF insF i store tweets).1 + (persistFrom selF insF i store tweets).2.1
        = tweets.length := by
  intro tweets
  induction tweets with
  | nil => intro i store; simp [persistFrom]
  | cons t ts ih =>
    intro i store
    simp only [persistFrom]
    cases hsv : save_tweet (selF i) (insF i) store t.tweet_id t.content t.author t.url with
    | mk b store' =>
      have htl := ih (i + 1) store'
      cases hp : persistFrom selF insF (i + 1) store' ts with
      | mk sv rest =>
        rw [hp] at htl
        cases b <;> simp at htl ⊢ <;> omega

/-- C2: for every page-state sequence, every `maxTweets` and every scroll
budget, the Collection Loop returns at most `maxTweets` records and
performs at most `maxScrollAttempts` scroll cycles (20 for the
hard-coded budget of `collect_tweets`, whose `max_tweets` parameter
defaults to 10); the loop is a total function, so hitting either bound
terminates it normally, with no error raised. -/
theorem C2_collection_bounds (page : Nat → List PageElement) (maxTweets maxScroll : Nat) :
    (collect_tweets page maxTweets).length ≤ maxTweets
    ∧ collect_tweets_scrolls page maxTweets ≤ 20
    ∧ (collectAux page maxTweets 0 maxScroll [] []).1.length ≤ maxTweets
    ∧ (collectAux page maxTweets 0 maxScroll [] []).2 ≤ maxScroll := by
  refine ⟨?_, ?_, ?_, ?_⟩
  · exact collectAux_length_le page maxTweets 20 0 [] [] (Nat.zero_le _)
  · simpa [collect_tweets_scrolls] using collectAux_scrolls_le page maxTweets 20 0 [] []
  · exact collectAux_length_le page maxTweets maxScroll 0 [] [] (Nat.zero_le _)
  · simpa using collectAux_scrolls_le page maxTweets maxScroll 0 [] []

/-- C3: within one Collection Loop invocation, the identifiers of the
returned records are pairwise distinct, for every sequence of rendered
page states (elements may reappear across scroll cycles) and every
`maxTweets`. -/
theorem C3_no_duplicate_ids (page : Nat → List PageElement) (maxTweets : Nat) :
    (tweetIds (collect_tweets page maxTweets)).Nodup :=
  collectAux_nodup page maxTweets 20 0 [] [] (by simp [tweetIds]) (by simp [tweetIds])

/-- C7: on `https://x.com/alice/status/12345?foo=bar` the Extraction
Step yields id `12345` and author `alice`; on any URL without the
`/status/` marker both extractors yield nothing. -/
theorem C7_extraction_examples :
    extract_tweet_id_from_url (("https://x.com/alice/status/12345?foo=bar").toList)
      = some (("12345").toList)
    ∧ extract_author_from_url (("https://x.com/alice/status/12345?foo=bar").toList)
      = some (("alice").toList)
    ∧ ∀ url : Str, strContains url statusMarker = false →
        extract_tweet_id_from_url url = none ∧ extract_author_from_url url = none := by
  refine ⟨by decide, by decide, ?_⟩
  intro url h
  constructor
  · simp [extract_tweet_id_from_url, h]
  · simp [extract_author_from_url, h]

theorem C7_witness :
    extract_tweet_id_from_url (("https://x.com/home").toList) = none
    ∧ extract_author_from_url (("https://x.com/home").toList) = none :=
  C7_extraction_examples.2.2 (("https://x.com/home").toList) (by decide)

/-- C9: for every nonnegative configured base interval and every
uniform sample `u ∈ [0, 1)`, `get_random_interval` lands in the closed
band `[0.8 * base, 1.2 * base]`. -/
theorem C9_jitter_band (base u : ℝ) (hb : 0 ≤ base) (h0 : 0 ≤ u) (h1 : u < 1) :
    get_random_interval base u ∈ Set.Icc (0.8 * base) (1.2 * base) := by
  unfold get_random_interval
  constructor
  · nlinarith
  · nlinarith

theorem C9_witness :
    get_random_interval 600 (1 / 2) ∈ Set.Icc (0.8 * 600) (1.2 * 600) :=
  C9_jitter_band 600 (1 / 2) (by norm_num) (by norm_num) (by norm_num)

/-- C6 (amended): for every positive `maxRuns`, the scheduler loop
performs exactly `min maxRuns k` Run Orchestrator invocations in `k`
loop iterations — in particular never more than `maxRuns`, and once
`runCount` reaches `maxRuns` no further run starts.  (`maxRuns = 0` is
excluded: the source's falsy test treats it as unset.) -/
theorem C6_max_runs_amended (m : Int) (hm : 0 < m) : ∀ k : Nat,
    runsAfter (some m) k = min m (k : Int) ∧ runsAfter (some m) k ≤ m := by
  have hne : m ≠ 0 := by omega
  have key : ∀ k : Nat, runsAfter (some m) k = min m (k : Int) := by
    intro k
    induction k with
    | zero =>
      simp [runsAfter]
      omega
    | succ n ih =>
      simp only [runsAfter, shouldStop, ih]
      by_cases h : m ≤ min m (n : Int)
      · rw [if_pos (by simp [hne, h])]
        push_cast
        omega
      · rw [if_neg (by simp [hne, h])]
        push_cast
        omega
  intro k
  exact ⟨key k, by rw [key k]; omega⟩

theorem C6_witness :
    runsAfter (some 3) 5 = min 3 (5 : Int) ∧ runsAfter (some 3) 5 ≤ 3 :=
  (C6_max_runs_amended 3 (by decide)) 5

/-- C6 counterexample: with `maxRuns = 0` — a set, non-null value — the
loop never stops: after 3 iterations it has performed 3 Run Orchestrator
invocations, more than `maxRuns`. -/
theorem C6_counterexample :
    runsAfter (some 0) 3 = 3 ∧ ¬ runsAfter (some 0) 3 ≤ 0 := by decide

/-- C1 (amended): for every identifier and every store state not yet
containing that identifier, inserting the same record twice (reliable
store, no faults) yields exactly one Saved (`True`) then one
SkippedDuplicate (`False`), and the store ends with exactly one row with
that id; and for every store state already containing the id, insert
returns `False` and performs no write (store unchanged). -/
theorem C1_insert_idempotent_amended (store : List TweetRow) (tid content : Str)
    (author : Option Str) (url : Str)
    (hfresh : ∀ r ∈ store, r.tweet_id ≠ tid) :
    save_tweet false none store tid content author url
      = (true, store ++ [⟨tid, content, author, url⟩])
    ∧ save_tweet false none (store ++ [⟨tid, content, author, url⟩]) tid content author url
      = (false, store ++ [⟨tid, content, author, url⟩])
    ∧ ((store ++ [(⟨tid, content, author, url⟩ : TweetRow)]).filter
        (fun r => decide (r.tweet_id = tid))).length = 1
    ∧ ∀ store' : List TweetRow, (∃ r ∈ store', r.tweet_id = tid) →
        save_tweet false none store' tid content author url = (false, store') := by
  refine ⟨save_tweet_fresh false store tid content author url hfresh, ?_, ?_, ?_⟩
  · have hmem : ∃ r ∈ store ++ [(⟨tid, content, author, url⟩ : TweetRow)], r.tweet_id = tid :=
      ⟨⟨tid, content, author, url⟩, by simp, rfl⟩
    exact save_tweet_dup none (store ++ [⟨tid, content, author, url⟩]) tid content author url hmem
  · rw [List.filter_append]
    have h1 : store.filter (fun r => decide (r.tweet_id = tid)) = [] := by
      rw [List.filter_eq_nil_iff]
      intro r hr
      simpa using hfresh r hr
    simp [h1]
  · intro store' hmem
    exact save_tweet_dup none store' tid content author url hmem

theorem C1_witness :
    save_tweet false none [] (("9").toList) (("hi").toList) none (("u").toList)
      = (true, [⟨("9").toList, ("hi").toList, none, ("u").toList⟩]) :=
  (C1_insert_idempotent_amended [] (("9").toList) (("hi").toList) none (("u").toList)
    (by simp)).1

/-- C1 counterexample: for the store state that already holds the row,
calling insert twice with the same record yields zero Saved (both calls
return `False`), not exactly one Saved and one SkippedDuplicate. -/
theorem C1_counterexample :
    (save_tweet false none [exRow] exRow.tweet_id exRow.content exRow.author exRow.tweet_url).1
      = false
    ∧ (save_tweet false none
        (save_tweet false none [exRow] exRow.tweet_id exRow.content exRow.author exRow.tweet_url).2
        exRow.tweet_id exRow.content exRow.author exRow.tweet_url).1 = false := by decide

/-- C4 (amended): the three situations are distinguished only by the
branch taken (the log line): a pre-check hit returns without writing, a
write failure whose message mentions a uniqueness violation takes the
duplicate branch, and any other write failure takes the final branch —
but the value returned to the caller is the same `False` in all three
cases, so the run's failure tally is merged into its duplicate tally
rather than kept separate; nothing is raised. -/
theorem C4_insert_outcomes_amended (store : List TweetRow) (tid content : Str)
    (author : Option Str) (url : Str) (insb : Option Str) (msg : Str) :
    ((∃ r ∈ store, r.tweet_id = tid) →
      save_tweet_outcome false insb store tid content author url = (.skipPrecheck, store))
    ∧ ((∀ r ∈ store, r.tweet_id ≠ tid) → looksLikeDupError msg = true →
      save_tweet_outcome false (some msg) store tid content author url = (.skipUnique, store))
    ∧ ((∀ r ∈ store, r.tweet_id ≠ tid) → looksLikeDupError msg = false →
      save_tweet_outcome false (some msg) store tid content author url = (.failOther, store))
    ∧ (save_tweet false (some msg) store tid content author url).1 = false := by
  refine ⟨fun h => save_tweet_outcome_dup insb store tid content author url h, ?_, ?_, ?_⟩
  · intro hfresh hmsg
    have hany := any_id_eq_false hfresh
    simp [save_tweet_outcome, is_duplicate, dbInsert, hany, hmsg]
  · intro hfresh hmsg
    have hany := any_id_eq_false hfresh
    simp [save_tweet_outcome, is_duplicate, dbInsert, hany, hmsg]
  · exact save_tweet_never_saved_on_fault store tid content author url msg false

theorem C4_witness :
    save_tweet_outcome false (some (("connection reset by peer").toList)) []
        (("9").toList) (("c").toList) none (("u").toList)
      = (SaveOutcome.failOther, []) :=
  (C4_insert_outcomes_amended [] (("9").toList) (("c").toList) none (("u").toList) none
    (("connection reset by peer").toList)).2.2.1 (by simp) (by decide)

/-- C4 counterexample: a write failure that is not a uniqueness
violation takes the distinct `failOther` branch internally, yet
`save_tweet` returns the same `False` a pre-check duplicate produces,
and the persistence loop tallies it in the skipped-duplicate count
(0 saved, 1 skipped) — there is no Failed outcome distinct from
SkippedDuplicate and no separate failure tally. -/
theorem C4_counterexample :
    (save_tweet_outcome false (some (("connection reset by peer").toList)) []
        (("9").toList) (("c").toList) none (("u").toList)).1 = SaveOutcome.failOther
    ∧ (save_tweet false (some (("connection reset by peer").toList)) []
        (("9").toList) (("c").toList) none (("u").toList)).1 = false
    ∧ (save_tweet false none [exRow] exRow.tweet_id exRow.content exRow.author
        exRow.tweet_url).1 = false
    ∧ persistFrom (fun _ => false) (fun _ => some (("connection reset by peer").toList)) 0 []
        [⟨("9").toList, ("c").toList, none, ("u").toList⟩]
      = (0, 1, []) := by decide

theorem persistFrom_all_saved (store : List TweetRow) (i : Nat) (tweets : List Tweet)
    (hnd : (tweetIds tweets).Nodup)
    (hfresh : ∀ t ∈ tweets, ∀ r ∈ store, r.tweet_id ≠ t.tweet_id) :
    (persistFrom (fun _ => true) (fun _ => none) i store tweets).1 = tweets.length := by
  induction tweets generalizing store i with
  | nil => simp [persistFrom]
  | cons t ts ih =>
    have hsave := save_tweet_fresh true store t.tweet_id t.content t.author t.url
      (fun r hr => hfresh t (List.mem_cons_self t ts) r hr)
    simp only [persistFrom, hsave]
    have hnd' : (tweetIds ts).Nodup := by
      simpa [tweetIds] using (List.nodup_cons.1 (by simpa [tweetIds] using hnd)).2
    have htid : t.tweet_id ∉ tweetIds ts :=
      (List.nodup_cons.1 (by simpa [tweetIds] using hnd)).1
    have hfresh' : ∀ t' ∈ ts, ∀ r ∈ store ++ [(⟨t.tweet_id, t.content, t.author, t.url⟩ : TweetRow)],
        r.tweet_id ≠ t'.tweet_id := by
      intro t' ht' r hr
      rcases List.mem_append.1 hr with hr | hr
      · exact hfresh t' (List.mem_cons_of_mem t ht') r hr
      · have : r = ⟨t.tweet_id, t.content, t.author, t.url⟩ := by simpa using hr
        subst this
        intro hcontra
        have hc2 : t.tweet_id = t'.tweet_id := hcontra
        exact htid (by rw [hc2]; exact List.mem_map_of_mem (fun x => x.tweet_id) ht')
    have := ih (store ++ [⟨t.tweet_id, t.content, t.author, t.url⟩]) (i + 1) hnd' hfresh'
    cases hp : persistFrom (fun _ => true) (fun _ => none) (i + 1)
        (store ++ [⟨t.tweet_id, t.content, t.author, t.url⟩]) ts with
    | mk sv rest =>
      rw [hp] at this
      simpa using this

/-- C8: on a transport/query failure (`selFault = true`) `is_duplicate`
returns `False` for every store state and identifier; consequently
`save_tweet` never takes the pre-check-skip branch under such a failure,
a fresh record is still written, and a whole run whose every `exists`
check fails still attempts and completes the write of every collected
record (fresh, pairwise-distinct ids) instead of skipping them all as
false duplicates. -/
theorem C8_degrade_to_false (store : List TweetRow) (tid content : Str)
    (author : Option Str) (url : Str) (insb : Option Str) :
    is_duplicate true store tid = false
    ∧ (save_tweet_outcome true insb store tid content author url).1 ≠ SaveOutcome.skipPrecheck
    ∧ ((∀ r ∈ store, r.tweet_id ≠ tid) →
        save_tweet true none store tid content author url
          = (true, store ++ [⟨tid, content, author, url⟩]))
    ∧ ∀ tweets : List Tweet, (tweetIds tweets).Nodup →
        (∀ t ∈ tweets, ∀ r ∈ store, r.tweet_id ≠ t.tweet_id) →
        (persistFrom (fun _ => true) (fun _ => none) 0 store tweets).1 = tweets.length := by
  refine ⟨rfl, ?_, ?_, ?_⟩
  · have hdup : is_duplicate true store tid = false := rfl
    simp only [save_tweet_outcome, hdup, Bool.false_eq_true, if_false]
    cases hins : dbInsert insb store ⟨tid, content, author, url⟩ with
    | ok s' => simp
    | error e => by_cases hm : looksLikeDupError e <;> simp [hm]
  · intro hfresh
    exact save_tweet_fresh true store tid content author url hfresh
  · intro tweets hnd hfresh
    exact persistFrom_all_saved store 0 tweets hnd hfresh

theorem C8_witness :
    is_duplicate true [exRow] exRow.tweet_id = false
    ∧ (persistFrom (fun _ => true) (fun _ => none) 0 [exRow]
        [⟨("9").toList, ("c").toList, none, ("u").toList⟩]).1 = 1 :=
  ⟨(C8_degrade_to_false [exRow] exRow.tweet_id exRow.content exRow.author exRow.tweet_url
      none).1,
    (C8_degrade_to_false [exRow] (("9").toList) (("c").toList) none (("u").toList) none).2.2.2
      [⟨("9").toList, ("c").toList, none, ("u").toList⟩] (by simp [tweetIds]) (by decide)⟩

/-- C10 (implicit): every RunResult satisfies
`total_collected = saved + skipped_duplicates` — each collected record
is tallied exactly once — and a record whose persistence fails for a
non-duplicate reason (the `failOther` branch) yields the same `False`
as a duplicate and is therefore counted in the skipped-duplicate tally. -/
theorem C10_tally_conservation (selF : Nat → Bool) (insF : Nat → Option Str)
    (store : List TweetRow) (tweets : List Tweet) :
    ((scrape_and_save_result selF insF store tweets).1.total_collected
      = (scrape_and_save_result selF insF store tweets).1.saved
        + (scrape_and_save_result selF insF store tweets).1.skipped_duplicates)
    ∧ ∀ (selb : Bool) (insb : Option Str) (st : List TweetRow) (tid content : Str)
        (author : Option Str) (url : Str),
        (save_tweet_outcome selb insb st tid content author url).1 = SaveOutcome.failOther →
        (save_tweet selb insb st tid content author url).1 = false := by
  constructor
  · have h := persistFrom_tally selF insF tweets 0 store
    simp only [scrape_and_save_result]
    cases hp : persistFrom selF insF 0 store tweets with
    | mk sv rest =>
      rw [hp] at h
      simpa using h.symm
  · intro selb insb st tid content author url hout
    simp only [save_tweet]
    cases hoc : save_tweet_outcome selb insb st tid content author url with
    | mk o s' =>
      rw [hoc] at hout
      simp only at hout
      subst hout
      simp

theorem C10_witness :
    ((scrape_and_save_result (fun _ => false) (fun _ => some (("boom").toList)) []
        [⟨("9").toList, ("c").toList, none, ("u").toList⟩]).1.total_collected
      = (scrape_and_save_result (fun _ => false) (fun _ => some (("boom").toList)) []
          [⟨("9").toList, ("c").toList, none, ("u").toList⟩]).1.saved
        + (scrape_and_save_result (fun _ => false) (fun _ => some (("boom").toList)) []
            [⟨("9").toList, ("c").toList, none, ("u").toList⟩]).1.skipped_duplicates)
    ∧ (save_tweet false (some (("boom").toList)) [] (("9").toList) (("c").toList) none
        (("u").toList)).1 = false :=
  ⟨(C10_tally_conservation (fun _ => false) (fun _ => some (("boom").toList)) []
      [⟨("9").toList, ("c").toList, none, ("u").toList⟩]).1,
    (C10_tally_conservation (fun _ => false) (fun _ => some (("boom").toList)) []
      [⟨("9").toList, ("c").toList, none, ("u").toList⟩]).2 false
      (some (("boom").toList)) [] (("9").toList) (("c").toList) none (("u").toList)
      (by decide)⟩

/-- C5 (amended): for a permalink containing `/status/`, the author is
the path segment immediately following the first host segment — `x.com`
checked first, then `twitter.com` — not the segment immediately
preceding `/status/`; when neither host appears as a path segment the
author is null, and extraction of the record still succeeds with content
and id usable (the loop collects the record with a null author). -/
theorem C5_author_after_host_amended :
    (∀ (h rest : Str), '/' ∉ h →
      extract_author_from_url ((("https://x.com/").toList ++ (h ++ (statusMarker ++ rest))))
        = some h)
    ∧ (∀ (h rest : Str), '/' ∉ h → h ≠ xcomSeg → xcomSeg ∉ splitChar '/' rest →
      extract_author_from_url ((("https://twitter.com/").toList ++ (h ++ (statusMarker ++ rest))))
        = some h)
    ∧ (∀ url : Str, xcomSeg ∉ splitChar '/' url → twitterSeg ∉ splitChar '/' url →
      extract_author_from_url url = none)
    ∧ processElements 10
        [⟨some (("https://example.com/bob/status/99").toList), ("t").toList⟩] [] []
      = ([("99").toList],
         [⟨("99").toList, ("t").toList, none, ("https://example.com/bob/status/99").toList⟩]) := by
  refine ⟨?_, ?_, ?_, by decide⟩
  · intro h rest hh
    have hc : strContains (("https://x.com/").toList ++ (h ++ (statusMarker ++ rest)))
        statusMarker = true := by
      have h2 := strContains_of_append (("https://x.com/").toList ++ h) statusMarker rest
        (by decide)
      simpa [List.append_assoc] using h2
    have e1 : (("https://x.com/").toList ++ (h ++ (statusMarker ++ rest)))
        = ("https:").toList ++ '/' :: (([] : Str) ++ '/' :: (xcomSeg ++ '/' ::
            (h ++ '/' :: (("status").toList ++ '/' :: rest)))) := rfl
    have hsplit : splitChar '/' (("https://x.com/").toList ++ (h ++ (statusMarker ++ rest)))
        = ("https:").toList :: ([] : Str) :: xcomSeg :: h :: ("status").toList ::
            splitChar '/' rest := by
      rw [e1, splitChar_append, splitChar_append, splitChar_append, splitChar_append,
        splitChar_append, splitChar_of_not_mem '/' h hh,
        show splitChar '/' (("https:").toList) = [("https:").toList] from by decide,
        show splitChar '/' xcomSeg = [xcomSeg] from by decide,
        show splitChar '/' (("status").toList) = [("status").toList] from by decide]
      rfl
    have hmem : xcomSeg ∈ (("https:").toList :: ([] : Str) :: xcomSeg :: h ::
        ("status").toList :: splitChar '/' rest) := by simp
    have hidx : listIndex xcomSeg (("https:").toList :: ([] : Str) :: xcomSeg :: h ::
        ("status").toList :: splitChar '/' rest) = 2 := by
      simp +decide [listIndex]
    simp only [extract_author_from_url, hc, if_true, hsplit]
    rw [if_pos hmem, hidx]
    rfl
  · intro h rest hh hx hxr
    have hc : strContains (("https://twitter.com/").toList ++ (h ++ (statusMarker ++ rest)))
        statusMarker = true := by
      have h2 := strContains_of_append (("https://twitter.com/").toList ++ h) statusMarker rest
        (by decide)
      simpa [List.append_assoc] using h2
    have e1 : (("https://twitter.com/").toList ++ (h ++ (statusMarker ++ rest)))
        = ("https:").toList ++ '/' :: (([] : Str) ++ '/' :: (twitterSeg ++ '/' ::
            (h ++ '/' :: (("status").toList ++ '/' :: rest)))) := rfl
    have hsplit : splitChar '/' (("https://twitter.com/").toList ++ (h ++ (statusMarker ++ rest)))
        = ("https:").toList :: ([] : Str) :: twitterSeg :: h :: ("status").toList ::
            splitChar '/' rest := by
      rw [e1, splitChar_append, splitChar_append, splitChar_append, splitChar_append,
        splitChar_append, splitChar_of_not_mem '/' h hh,
        show splitChar '/' (("https:").toList) = [("https:").toList] from by decide,
        show splitChar '/' twitterSeg = [twitterSeg] from by decide,
        show splitChar '/' (("status").toList) = [("status").toList] from by decide]
      rfl
    have hnx : xcomSeg ∉ (("https:").toList :: ([] : Str) :: twitterSeg :: h ::
        ("status").toList :: splitChar '/' rest) := by
      simp only [List.mem_cons, not_or]
      exact ⟨by decide, by decide, by decide, fun hcontra => hx hcontra.symm, by decide, hxr⟩
    have hmem : twitterSeg ∈ (("https:").toList :: ([] : Str) :: twitterSeg :: h ::
        ("status").toList :: splitChar '/' rest) := by simp
    have hidx : listIndex twitterSeg (("https:").toList :: ([] : Str) :: twitterSeg :: h ::
        ("status").toList :: splitChar '/' rest) = 2 := by
      simp +decide [listIndex]
    simp only [extract_author_from_url, hc, if_true, hsplit]
    rw [if_neg hnx, if_pos hmem, hidx]
    rfl
  · intro url h1 h2
    by_cases hc : strContains url statusMarker = true
    · simp [extract_author_from_url, hc, h1, h2]
    · simp [extract_author_from_url, hc]

theorem C5_witness :
    extract_author_from_url ((("https://x.com/").toList ++ ((("alice").toList) ++
        (statusMarker ++ (("777").toList))))) = some (("alice").toList) :=
  C5_author_after_host_amended.1 (("alice").toList) (("777").toList) (by decide)

/-- C5 counterexample: on the permalink `https://x.com/i/web/status/123`
(which contains `/status/` and carries the canonical host) the code
yields author `i` — the segment immediately following the host — while
the path segment immediately preceding `/status/` is `web`. -/
theorem C5_counterexample :
    extract_author_from_url (("https://x.com/i/web/status/123").toList) = some (("i").toList)
    ∧ authorPrecedingStatus (("https://x.com/i/web/status/123").toList) = some (("web").toList)
    ∧ ¬ extract_author_from_url (("https://x.com/i/web/status/123").toList)
        = authorPrecedingStatus (("https://x.com/i/web/status/123").toList) := by decide
